import Mathlib

/-!
# Verification of the myweb-analytics session-construction and batch-load pipeline

Shallow embedding of `src/backend/log_processor/session_builder.py` and
`src/backend/log_processor/loader.py`.

Modelling conventions:
* Python `datetime` values are modelled as `Int` microseconds since an arbitrary
  epoch (Python `datetime`/`timedelta` arithmetic is exact at microsecond
  resolution; `timedelta(minutes=m)` is `m * 60 * 1000000` microseconds).
* `int(timedelta.total_seconds())` truncates toward zero, modelled by `Int.tdiv`
  with divisor `1000000`.
* A Python dict entry is a structure of the fields the code reads or writes;
  fields the code only passes through unchanged are omitted.  An absent key is
  `none`.  The `session_id` key written by `add_page_view` is
  `Option (Option String)`: `none` = key absent, `some none` = key set to
  Python `None`, `some (some s)` = key set to the string `s`.
* The `defaultdict(list)` mapping from visitor id to session list is an
  insertion-ordered association list; a missing key reads as `[]`.  The code
  only ever stores a visitor key together with at least one session, so the
  transient empty list created by `defaultdict` is unobservable.
* `_generate_session_id` computes the 32-hex-char truncated sha256 of the key
  string `f"{visitor_id}:{timestamp.isoformat()}"`.  The digest value is opaque
  to every property below (only equality and determinism of session ids
  matter), so the session id is modelled by the pre-image key itself, which is
  deterministic in `(visitor_id, timestamp)` exactly like the code.
-/

/-- One microsecond-resolution second, for converting spec-level seconds. -/
def microsPerSecond : Int := 1000000

/-- `timedelta(minutes=session_timeout_minutes)` in microseconds. -/
def timeoutOfMinutes (m : Int) : Int := m * 60 * microsPerSecond

/-- An enriched log entry, as read/written by `SessionBuilder.add_page_view`
(`entry.get("visitor_id")`, `entry.get("timestamp")`, `entry.get("url_path")`,
`entry.get("device_type")`, `entry.get("country_code")`,
`entry["session_id"] = ...`). -/
structure Entry where
  visitor_id : Option String
  timestamp : Option Int
  url_path : Option String
  device_type : Option String
  country_code : Option String
  session_id : Option (Option String) := none
deriving Repr, DecidableEq

/-- One in-progress session dict, as built at
`session_builder.py` lines 75-86 / 104-114. -/
structure Session where
  session_id : String
  start_time : Int
  last_activity : Int
  page_views_count : Nat
  landing_page : Option String
  exit_page : Option String
  device_type : Option String
  country_code : Option String
deriving Repr, DecidableEq

/-- The tracker state: `session_timeout` plus `sessions_by_visitor`,
an insertion-ordered map from visitor id to its session list. -/
structure SessionBuilder where
  session_timeout : Int
  sessions_by_visitor : List (String × List Session)
deriving Repr, DecidableEq

/-- `SessionBuilder(session_timeout_minutes)`: fresh tracker. -/
def SessionBuilder.init (session_timeout_minutes : Int) : SessionBuilder :=
  { session_timeout := timeoutOfMinutes session_timeout_minutes
    sessions_by_visitor := [] }

/-- Read `self.sessions_by_visitor[visitor_id]` (a `defaultdict(list)`:
missing key reads as the empty list). -/
def lookupSessions (m : List (String × List Session)) (v : String) :
    List Session :=
  match m.find? (fun p => p.1 == v) with
  | some p => p.2
  | none => []

/-- Store a (nonempty) session list under `visitor_id`, keeping insertion
order of keys: replace the value if the key exists, else append the key. -/
def setSessions (m : List (String × List Session)) (v : String)
    (ss : List Session) : List (String × List Session) :=
  match m with
  | [] => [(v, ss)]
  | p :: rest =>
      if p.1 == v then (v, ss) :: rest else p :: setSessions rest v ss

/-- The session dict built for a first-in-session record
(`session_builder.py` lines 75-86, identical at lines 104-114). -/
def mkNewSession (visitor_id : String) (timestamp : Int) (e : Entry) :
    Session :=
  { session_id := visitor_id ++ ":" ++ toString timestamp
    start_time := timestamp
    last_activity := timestamp
    page_views_count := 1
    landing_page := e.url_path
    exit_page := e.url_path
    device_type := e.device_type
    country_code := e.country_code }

/-- `_get_or_create_session(visitor_id, timestamp, entry)`: returns the
assigned session id and the updated tracker state. -/
def getOrCreateSession (b : SessionBuilder) (visitor_id : String)
    (timestamp : Int) (e : Entry) : String × SessionBuilder :=
  let visitor_sessions := lookupSessions b.sessions_by_visitor visitor_id
  match visitor_sessions.getLast? with
  | none =>
      let s := mkNewSession visitor_id timestamp e
      let m := setSessions b.sessions_by_visitor visitor_id [s]
      (s.session_id, { b with sessions_by_visitor := m })
  | some current_session =>
      if timestamp - current_session.last_activity ≤ b.session_timeout then
        let updated := { current_session with
          last_activity := timestamp
          page_views_count := current_session.page_views_count + 1
          exit_page := e.url_path }
        let m := setSessions b.sessions_by_visitor visitor_id
          (visitor_sessions.dropLast ++ [updated])
        (current_session.session_id, { b with sessions_by_visitor := m })
      else
        let s := mkNewSession visitor_id timestamp e
        let m := setSessions b.sessions_by_visitor visitor_id
          (visitor_sessions ++ [s])
        (s.session_id, { b with sessions_by_visitor := m })

/-- Python truthiness of `entry.get("visitor_id")`: `None` and the empty
string are falsy; any other string is truthy. -/
def truthyVisitor : Option String → Bool
  | none => false
  | some s => !(s == "")

/-- Python truthiness of `entry.get("timestamp")`: `None` is falsy; a
`datetime` object is always truthy. -/
def truthyTimestamp : Option Int → Bool
  | none => false
  | some _ => true

/-- `add_page_view(entry)`: returns the annotated entry and the updated
tracker state. -/
def addPageView (b : SessionBuilder) (e : Entry) : Entry × SessionBuilder :=
  if truthyVisitor e.visitor_id && truthyTimestamp e.timestamp then
    match e.visitor_id, e.timestamp with
    | some v, some t =>
        let r := getOrCreateSession b v t e
        ({ e with session_id := some (some r.1) }, r.2)
    | _, _ => ({ e with session_id := some none }, b)
  else
    ({ e with session_id := some none }, b)

/-- Feed a list of entries to `add_page_view` in order, collecting the
annotated entries. -/
def runAdd (b : SessionBuilder) (es : List Entry) :
    List Entry × SessionBuilder :=
  match es with
  | [] => ([], b)
  | e :: rest =>
      let r := addPageView b e
      let r' := runAdd r.2 rest
      (r.1 :: r'.1, r'.2)

/-- One finalized session record as emitted by `get_sessions`. -/
structure SessionRecord where
  session_id : String
  visitor_id : String
  start_time : Int
  end_time : Int
  duration_seconds : Int
  page_views_count : Nat
  landing_page : Option String
  exit_page : Option String
  device_type : Option String
  country_code : Option String
deriving Repr, DecidableEq

/-- The record built for one session in the `get_sessions` loop body
(`session_builder.py` lines 144-161), with
`duration_seconds = int((last_activity - start_time).total_seconds())`,
i.e. whole seconds truncated toward zero. -/
def sessionRecordOf (visitor_id : String) (s : Session) : SessionRecord :=
  { session_id := s.session_id
    visitor_id := visitor_id
    start_time := s.start_time
    end_time := s.last_activity
    duration_seconds := (s.last_activity - s.start_time).tdiv microsPerSecond
    page_views_count := s.page_views_count
    landing_page := s.landing_page
    exit_page := s.exit_page
    device_type := s.device_type
    country_code := s.country_code }

/-- `get_sessions()`: every session of every visitor. -/
def getSessions (b : SessionBuilder) : List SessionRecord :=
  b.sessions_by_visitor.flatMap fun p => p.2.map (sessionRecordOf p.1)

/-- One visitor rollup record as emitted by `get_visitors`. -/
structure VisitorRecord where
  visitor_id : String
  first_seen : Int
  last_seen : Int
  total_visits : Nat
  total_page_views : Nat
deriving Repr, DecidableEq

/-- The body of the `get_visitors` loop for one `(visitor_id, sessions)`
item: skip empty lists (`if not sessions: continue`), else one record with
`first_seen` from `sessions[0]` and `last_seen` from `sessions[-1]`. -/
def visitorRecordOf (p : String × List Session) : Option VisitorRecord :=
  match p.2 with
  | [] => none
  | s0 :: rest =>
      some
        { visitor_id := p.1
          first_seen := s0.start_time
          last_seen := ((s0 :: rest).getLast (List.cons_ne_nil s0 rest)).last_activity
          total_visits := (s0 :: rest).length
          total_page_views := ((s0 :: rest).map Session.page_views_count).sum }

/-- `get_visitors()`: aggregated statistics per visitor. -/
def getVisitors (b : SessionBuilder) : List VisitorRecord :=
  b.sessions_by_visitor.filterMap visitorRecordOf

/-- `reset()`: clear all session data. -/
def SessionBuilder.reset (b : SessionBuilder) : SessionBuilder :=
  { b with sessions_by_visitor := [] }

/-!
## Batch loader (`loader.py`)

The database is modelled as an in-memory list of rows per table.  A bulk
insert (`bulk_insert_mappings` + `commit`) is transactional: it succeeds and
appends every record, or raises and leaves the table unchanged.  Which
individual records the store rejects (constraint violations) is abstracted as
a predicate `accepts`; a bulk insert raises exactly when some record of the
chunk is rejected.  `rollback` restores the pre-chunk table.  Console/progress
output is ignored.
-/

/-- `range(0, len(l), n)` chunking: `l[i : i + n]` for each batch start.
For `n = 0` Python raises; all theorems below assume `0 < n` where the chunk
bound matters. -/
def chunksOf (n : Nat) : List α → List (List α)
  | [] => []
  | x :: xs => (x :: xs.take (n - 1)) :: chunksOf n (xs.drop (n - 1))
termination_by l => l.length
decreasing_by
  simp only [List.length_drop, List.length_cons]
  omega

/-- One row of the `page_views` table, exactly the fields the loader copies
out of the incoming dict at `loader.py` lines 67-91 (fields the loader drops
are omitted; `session_id` is `None` for session-less records). -/
structure PageViewRow where
  timestamp : Option Int
  visitor_id : Option String
  session_id : Option String
  url_path : Option String
  query_string : Option String
  http_method : Option String
  status_code : Option Int
  referrer_domain : Option String
  referrer_path : Option String
  user_agent : Option String
  browser : Option String
  browser_version : Option String
  os : Option String
  os_version : Option String
  device_type : Option String
  country_code : Option String
  country_name : Option String
  region : Option String
  city : Option String
  edge_location : Option String
  edge_result_type : Option String
  bytes_sent : Option Int
  time_taken_ms : Option Int
deriving Repr, DecidableEq

/-- The single-record fallback loop (`loader.py` lines 104-114): insert each
record of the failed chunk on its own, committing independently; a rejected
record is logged and dropped. State is `(table rows, inserted_count)`. -/
def insertOneByOne (accepts : PageViewRow → Bool)
    (st : List PageViewRow × Nat) (records : List PageViewRow) :
    List PageViewRow × Nat :=
  match records with
  | [] => st
  | r :: rest =>
      if accepts r then insertOneByOne accepts (st.1 ++ [r], st.2 + 1) rest
      else insertOneByOne accepts st rest

/-- One chunk of `load_page_views` (`loader.py` lines 94-114): try the bulk
insert; on failure roll back and fall back to one-by-one inserts. -/
def loadPageViewChunk (accepts : PageViewRow → Bool)
    (st : List PageViewRow × Nat) (chunk : List PageViewRow) :
    List PageViewRow × Nat :=
  if chunk.all accepts then (st.1 ++ chunk, st.2 + chunk.length)
  else insertOneByOne accepts st chunk

/-- `load_page_views(page_views)`: chunk the input by `batch_size` and load
each chunk; returns the final table and the returned `inserted_count`.
(The empty-input early return yields `(store, 0)`, the same as the loop.) -/
def loadPageViews (accepts : PageViewRow → Bool) (batch_size : Nat)
    (store : List PageViewRow) (page_views : List PageViewRow) :
    List PageViewRow × Nat :=
  (chunksOf batch_size page_views).foldl (loadPageViewChunk accepts) (store, 0)

/-- One row upsert of `INSERT ... ON CONFLICT (session_id) DO UPDATE`
(`loader.py` lines 152-161): if the key exists, overwrite only `end_time`,
`duration_seconds`, `page_views_count`, `exit_page`; else insert the row. -/
def upsertSessionRow (store : List SessionRecord) (r : SessionRecord) :
    List SessionRecord :=
  if store.any (fun s => s.session_id == r.session_id) then
    store.map fun s =>
      if s.session_id == r.session_id then
        { s with end_time := r.end_time
                 duration_seconds := r.duration_seconds
                 page_views_count := r.page_views_count
                 exit_page := r.exit_page }
      else s
  else store ++ [r]

/-- `load_sessions(sessions)`: chunk by `batch_size`; each chunk is one
multi-row upsert statement (modelled row by row in order; PostgreSQL forbids
two rows with the same key inside one statement, so this model is used only
with distinct keys per chunk).  On success `inserted_count += len(batch)`;
no single-record fallback exists for sessions. -/
def loadSessions (batch_size : Nat) (store : List SessionRecord)
    (sessions : List SessionRecord) : List SessionRecord × Nat :=
  (chunksOf batch_size sessions).foldl
    (fun st chunk => (chunk.foldl upsertSessionRow st.1, st.2 + chunk.length))
    (store, 0)

/-- One row upsert of `INSERT ... ON CONFLICT (visitor_id) DO UPDATE`
(`loader.py` lines 206-213): if the key exists, overwrite only `last_seen`,
`total_visits`, `total_page_views`; else insert the row. -/
def upsertVisitorRow (store : List VisitorRecord) (r : VisitorRecord) :
    List VisitorRecord :=
  if store.any (fun s => s.visitor_id == r.visitor_id) then
    store.map fun s =>
      if s.visitor_id == r.visitor_id then
        { s with last_seen := r.last_seen
                 total_visits := r.total_visits
                 total_page_views := r.total_page_views }
      else s
  else store ++ [r]

/-- `load_visitors(visitors)`: chunk by `batch_size`; each chunk is one
multi-row upsert statement, counted wholesale on success. -/
def loadVisitors (batch_size : Nat) (store : List VisitorRecord)
    (visitors : List VisitorRecord) : List VisitorRecord × Nat :=
  (chunksOf batch_size visitors).foldl
    (fun st chunk => (chunk.foldl upsertVisitorRow st.1, st.2 + chunk.length))
    (store, 0)

/-!
## Basic lemmas about the visitor map
-/

/-- Shorthand: the session list currently tracked for visitor `v`. -/
def sessionsOf (b : SessionBuilder) (v : String) : List Session :=
  lookupSessions b.sessions_by_visitor v

theorem lookupSessions_cons (p : String × List Session)
    (m : List (String × List Session)) (v : String) :
    lookupSessions (p :: m) v =
      if p.1 == v then p.2 else lookupSessions m v := by
  cases h : p.1 == v <;> simp [lookupSessions, List.find?_cons, h]

theorem lookupSessions_setSessions_self (m : List (String × List Session))
    (v : String) (ss : List Session) :
    lookupSessions (setSessions m v ss) v = ss := by
  induction m with
  | nil => simp [setSessions, lookupSessions, List.find?]
  | cons p rest ih =>
      by_cases h : p.1 = v
      · simp [setSessions, h, lookupSessions_cons]
      · have h' : (p.1 == v) = false := by simp [h]
        simp [setSessions, h', lookupSessions_cons, ih]

theorem lookupSessions_setSessions_other (m : List (String × List Session))
    (v w : String) (ss : List Session) (hvw : w ≠ v) :
    lookupSessions (setSessions m v ss) w = lookupSessions m w := by
  induction m with
  | nil =>
      have h' : (v == w) = false := by simp [Ne.symm hvw]
      simp [setSessions, lookupSessions_cons, h', lookupSessions]
  | cons p rest ih =>
      by_cases h : p.1 = v
      · have h1 : (v == w) = false := by simp [Ne.symm hvw]
        have h2 : (p.1 == w) = false := by simp [h, Ne.symm hvw]
        simp [setSessions, h, lookupSessions_cons, h1, h2]
      · have h' : (p.1 == v) = false := by simp [h]
        cases hpw : p.1 == w <;>
          simp [setSessions, h', lookupSessions_cons, hpw, ih]

theorem mem_setSessions (m : List (String × List Session)) (v : String)
    (ss : List Session) (p : String × List Session)
    (hp : p ∈ setSessions m v ss) : p ∈ m ∨ p = (v, ss) := by
  induction m with
  | nil => simp [setSessions] at hp; simp [hp]
  | cons q rest ih =>
      by_cases h : q.1 = v
      · simp [setSessions, h] at hp
        rcases hp with hp | hp
        · right; exact hp
        · left; exact List.mem_cons_of_mem _ hp
      · have h' : (q.1 == v) = false := by simp [h]
        simp [setSessions, h'] at hp
        rcases hp with hp | hp
        · left; simp [hp]
        · rcases ih hp with h1 | h1
          · left; exact List.mem_cons_of_mem _ h1
          · right; exact h1

theorem lookupSessions_mem (m : List (String × List Session)) (v : String)
    (h : lookupSessions m v ≠ []) : (v, lookupSessions m v) ∈ m := by
  unfold lookupSessions at *
  cases hf : m.find? (fun p => p.1 == v) with
  | none => simp [hf] at h
  | some p =>
      have hmem := List.mem_of_find?_eq_some hf
      have hkey := List.find?_some hf
      have : p.1 = v := by simpa using hkey
      simp [hf]
      rw [← this]
      simpa using hmem

/-!
## Step lemmas for `add_page_view`
-/

/-- The in-place update of the current session on the extend branch
(`session_builder.py` lines 97-99). -/
def extendSession (cur : Session) (t : Int) (e : Entry) : Session :=
  { cur with last_activity := t
             page_views_count := cur.page_views_count + 1
             exit_page := e.url_path }

theorem addPageView_skip (b : SessionBuilder) (e : Entry)
    (h : truthyVisitor e.visitor_id = false ∨ truthyTimestamp e.timestamp = false) :
    addPageView b e = ({ e with session_id := some none }, b) := by
  rcases h with h | h <;> simp [addPageView, h]

theorem addPageView_valid (b : SessionBuilder) (e : Entry) (v : String)
    (t : Int) (hv : e.visitor_id = some v) (ht : e.timestamp = some t)
    (hne : v ≠ "") :
    addPageView b e =
      ({ e with session_id := some (some (getOrCreateSession b v t e).1) },
        (getOrCreateSession b v t e).2) := by
  simp [addPageView, hv, ht, truthyVisitor, truthyTimestamp, hne]

theorem addPageView_first (b : SessionBuilder) (e : Entry) (v : String)
    (t : Int) (hv : e.visitor_id = some v) (ht : e.timestamp = some t)
    (hne : v ≠ "") (hs : sessionsOf b v = []) :
    (addPageView b e).1 = { e with session_id := some (some (mkNewSession v t e).session_id) } ∧
    sessionsOf (addPageView b e).2 v = [mkNewSession v t e] ∧
    (∀ w, w ≠ v → sessionsOf (addPageView b e).2 w = sessionsOf b w) ∧
    (addPageView b e).2.session_timeout = b.session_timeout := by
  rw [addPageView_valid b e v t hv ht hne]
  unfold getOrCreateSession
  rw [show lookupSessions b.sessions_by_visitor v = [] from hs]
  refine ⟨rfl, ?_, ?_, rfl⟩
  · simp [sessionsOf, lookupSessions_setSessions_self]
  · intro w hw
    simp [sessionsOf, lookupSessions_setSessions_other _ _ _ _ hw]

theorem addPageView_extend (b : SessionBuilder) (e : Entry) (v : String)
    (t : Int) (ss : List Session) (cur : Session)
    (hv : e.visitor_id = some v) (ht : e.timestamp = some t) (hne : v ≠ "")
    (hs : sessionsOf b v = ss ++ [cur])
    (hgap : t - cur.last_activity ≤ b.session_timeout) :
    (addPageView b e).1 = { e with session_id := some (some cur.session_id) } ∧
    sessionsOf (addPageView b e).2 v = ss ++ [extendSession cur t e] ∧
    (∀ w, w ≠ v → sessionsOf (addPageView b e).2 w = sessionsOf b w) ∧
    (addPageView b e).2.session_timeout = b.session_timeout := by
  rw [addPageView_valid b e v t hv ht hne]
  unfold getOrCreateSession
  rw [show lookupSessions b.sessions_by_visitor v = ss ++ [cur] from hs]
  simp only [List.getLast?_concat, List.dropLast_concat, hgap, if_true, ite_true]
  refine ⟨trivial, ?_, ?_, trivial⟩
  · simp [sessionsOf, lookupSessions_setSessions_self, extendSession]
  · intro w hw
    simp [sessionsOf, lookupSessions_setSessions_other _ _ _ _ hw]

theorem addPageView_newSession (b : SessionBuilder) (e : Entry) (v : String)
    (t : Int) (ss : List Session) (cur : Session)
    (hv : e.visitor_id = some v) (ht : e.timestamp = some t) (hne : v ≠ "")
    (hs : sessionsOf b v = ss ++ [cur])
    (hgap : b.session_timeout < t - cur.last_activity) :
    (addPageView b e).1 = { e with session_id := some (some (mkNewSession v t e).session_id) } ∧
    sessionsOf (addPageView b e).2 v = (ss ++ [cur]) ++ [mkNewSession v t e] ∧
    (∀ w, w ≠ v → sessionsOf (addPageView b e).2 w = sessionsOf b w) ∧
    (addPageView b e).2.session_timeout = b.session_timeout := by
  rw [addPageView_valid b e v t hv ht hne]
  unfold getOrCreateSession
  rw [show lookupSessions b.sessions_by_visitor v = ss ++ [cur] from hs]
  have hgap' : ¬ (t - cur.last_activity ≤ b.session_timeout) := not_le.mpr hgap
  simp only [List.getLast?_concat, hgap', if_false, ite_false]
  refine ⟨trivial, ?_, ?_, trivial⟩
  · simp [sessionsOf, lookupSessions_setSessions_self]
  · intro w hw
    simp [sessionsOf, lookupSessions_setSessions_other _ _ _ _ hw]

/-- Exhaustive description of one `add_page_view` step: either the entry is
session-less (falsy visitor id or timestamp) and the state is untouched, or
exactly one of the three branches of `_get_or_create_session` fires. -/
theorem addPageView_cases (b : SessionBuilder) (e : Entry) :
    (addPageView b e).2 = b ∨
    ∃ v t, e.visitor_id = some v ∧ e.timestamp = some t ∧ v ≠ "" ∧
      (addPageView b e).2.session_timeout = b.session_timeout ∧
      (∀ w, w ≠ v → sessionsOf (addPageView b e).2 w = sessionsOf b w) ∧
      ((sessionsOf b v = [] ∧
          sessionsOf (addPageView b e).2 v = [mkNewSession v t e]) ∨
       (∃ ss cur, sessionsOf b v = ss ++ [cur] ∧
          t - cur.last_activity ≤ b.session_timeout ∧
          sessionsOf (addPageView b e).2 v = ss ++ [extendSession cur t e]) ∨
       (∃ ss cur, sessionsOf b v = ss ++ [cur] ∧
          b.session_timeout < t - cur.last_activity ∧
          sessionsOf (addPageView b e).2 v = (ss ++ [cur]) ++ [mkNewSession v t e])) := by
  by_cases hv : truthyVisitor e.visitor_id = true
  on_goal 2 =>
    left
    rw [addPageView_skip b e (Or.inl (by simpa using hv))]
  by_cases ht : truthyTimestamp e.timestamp = true
  on_goal 2 =>
    left
    rw [addPageView_skip b e (Or.inr (by simpa using ht))]
  right
  obtain ⟨v, hv'⟩ : ∃ v, e.visitor_id = some v := by
    cases hvis : e.visitor_id with
    | none => rw [hvis] at hv; simp [truthyVisitor] at hv
    | some v => exact ⟨v, rfl⟩
  have hne : v ≠ "" := by
    intro h
    rw [hv', h] at hv
    simp [truthyVisitor] at hv
  obtain ⟨t, ht'⟩ : ∃ t, e.timestamp = some t := by
    cases hts : e.timestamp with
    | none => rw [hts] at ht; simp [truthyTimestamp] at ht
    | some t => exact ⟨t, rfl⟩
  refine ⟨v, t, hv', ht', hne, ?_⟩
  rcases List.eq_nil_or_concat (sessionsOf b v) with hnil | ⟨ss, cur, hcat0⟩
  · obtain ⟨_, h2, h3, h4⟩ := addPageView_first b e v t hv' ht' hne hnil
    exact ⟨h4, h3, Or.inl ⟨hnil, h2⟩⟩
  · have hcat : sessionsOf b v = ss ++ [cur] := by
      simpa [List.concat_eq_append] using hcat0
    rcases le_or_lt (t - cur.last_activity) b.session_timeout with hgap | hgap
    · obtain ⟨_, h2, h3, h4⟩ := addPageView_extend b e v t ss cur hv' ht' hne hcat hgap
      exact ⟨h4, h3, Or.inr (Or.inl ⟨ss, cur, hcat, hgap, h2⟩)⟩
    · obtain ⟨_, h2, h3, h4⟩ := addPageView_newSession b e v t ss cur hv' ht' hne hcat hgap
      exact ⟨h4, h3, Or.inr (Or.inr ⟨ss, cur, hcat, hgap, h2⟩)⟩

/-!
## Concrete data for witnesses
-/

/-- A concrete enriched entry for visitor `v1`. -/
def exEntry (t : Int) (path : String) : Entry :=
  { visitor_id := some "v1", timestamp := some t, url_path := some path,
    device_type := some "desktop", country_code := some "GB" }

/-- A fresh tracker with the default 30-minute timeout. -/
def exBuilder : SessionBuilder := SessionBuilder.init 30

/-- A concrete entry with no visitor id. -/
def exNoVisitor : Entry :=
  { visitor_id := none, timestamp := some 0, url_path := some "/a",
    device_type := some "desktop", country_code := some "GB" }

/-- A concrete entry whose visitor id is present but the empty string. -/
def exEmptyVisitor : Entry :=
  { visitor_id := some "", timestamp := some 0, url_path := some "/a",
    device_type := some "desktop", country_code := some "GB" }

/-!
## Claim theorems
-/

/-- C6: a record missing its visitor id or its timestamp gets
`session_id = None` and is returned, and the call leaves all tracker state
unchanged: no visitor's session list changes and `get_sessions` /
`get_visitors` output exactly what they would had the call not occurred.
An edge case, never an error. -/
theorem sessionless_record_no_mutation (b : SessionBuilder) (e : Entry)
    (h : e.visitor_id = none ∨ e.timestamp = none) :
    addPageView b e = ({ e with session_id := some none }, b) ∧
    getSessions (addPageView b e).2 = getSessions b ∧
    getVisitors (addPageView b e).2 = getVisitors b ∧
    (∀ v, sessionsOf (addPageView b e).2 v = sessionsOf b v) := by
  have hskip : truthyVisitor e.visitor_id = false ∨
      truthyTimestamp e.timestamp = false := by
    rcases h with h | h
    · exact Or.inl (by simp [truthyVisitor, h])
    · exact Or.inr (by simp [truthyTimestamp, h])
  rw [addPageView_skip b e hskip]
  exact ⟨rfl, rfl, rfl, fun v => rfl⟩

theorem sessionless_record_no_mutation_witness :
    addPageView exBuilder exNoVisitor =
      ({ exNoVisitor with session_id := some none }, exBuilder) :=
  (sessionless_record_no_mutation exBuilder exNoVisitor (Or.inl rfl)).1

/-- C10: `add_page_view` tests `visitor_id` and `timestamp` for Python
truthiness, not presence: a record whose visitor id is present but equal to
the empty string is handled exactly like a record with the field absent —
`session_id` is set to `None` and no tracker state is touched.  (A present
timestamp is a `datetime` object, which is always truthy, so only an
absent/`None` timestamp is falsy.) -/
theorem empty_visitor_id_like_absent (b : SessionBuilder) (e e' : Entry)
    (hv : e.visitor_id = some "") (he' : e' = { e with visitor_id := none }) :
    addPageView b e = ({ e with session_id := some none }, b) ∧
    addPageView b e' = ({ e' with session_id := some none }, b) ∧
    (addPageView b e).2 = (addPageView b e').2 ∧
    (addPageView b e).1.session_id = (addPageView b e').1.session_id := by
  have h1 : addPageView b e = ({ e with session_id := some none }, b) :=
    addPageView_skip b e (Or.inl (by simp [truthyVisitor, hv]))
  have h2 : addPageView b e' = ({ e' with session_id := some none }, b) :=
    addPageView_skip b e' (Or.inl (by rw [he']; simp [truthyVisitor]))
  exact ⟨h1, h2, by rw [h1, h2], by rw [h1, h2]⟩

theorem empty_visitor_id_like_absent_witness :
    addPageView exBuilder exEmptyVisitor =
      ({ exEmptyVisitor with session_id := some none }, exBuilder) :=
  (empty_visitor_id_like_absent exBuilder exEmptyVisitor
    { exEmptyVisitor with visitor_id := none } rfl rfl).1

/-- C9: every record emitted by `get_sessions` has `duration_seconds` equal
to `last_activity - start_time` in whole seconds with the fractional part
truncated toward zero, not rounded; concretely, a session whose two page
views are 45 seconds apart reports 45, and one whose page views are 45.9
seconds apart also reports 45 (rounding would give 46). -/
theorem duration_truncated :
    (∀ (b : SessionBuilder) (r : SessionRecord), r ∈ getSessions b →
        r.duration_seconds = (r.end_time - r.start_time).tdiv microsPerSecond) ∧
    ((getSessions (runAdd (SessionBuilder.init 30)
        [exEntry 0 "/a", exEntry (45 * microsPerSecond) "/b"]).2).map
          SessionRecord.duration_seconds = [45]) ∧
    ((getSessions (runAdd (SessionBuilder.init 30)
        [exEntry 0 "/a", exEntry (45 * microsPerSecond + 900000) "/b"]).2).map
          SessionRecord.duration_seconds = [45]) := by
  refine ⟨?_, by decide, by decide⟩
  intro b r hr
  simp only [getSessions, List.mem_flatMap, List.mem_map] at hr
  obtain ⟨p, _, s, _, rfl⟩ := hr
  rfl

theorem duration_truncated_witness :
    sessionRecordOf "v1" (mkNewSession "v1" 0 (exEntry 0 "/a")) ∈
      getSessions (runAdd (SessionBuilder.init 30) [exEntry 0 "/a"]).2 ∧
    (sessionRecordOf "v1" (mkNewSession "v1" 0 (exEntry 0 "/a"))).duration_seconds =
      ((sessionRecordOf "v1" (mkNewSession "v1" 0 (exEntry 0 "/a"))).end_time -
        (sessionRecordOf "v1" (mkNewSession "v1" 0 (exEntry 0 "/a"))).start_time).tdiv
          microsPerSecond :=
  ⟨by decide, duration_truncated.1
    (runAdd (SessionBuilder.init 30) [exEntry 0 "/a"]).2
    (sessionRecordOf "v1" (mkNewSession "v1" 0 (exEntry 0 "/a")))
    (by decide)⟩

theorem getElem?_concat_self (l : List α) (a : α) :
    (l ++ [a])[l.length]? = some a := by
  rw [List.getElem?_append_right (le_refl l.length)]
  simp

/-- C2: for a visitor that already has a session, `add_page_view` extends the
most recently created session exactly when `timestamp - last_activity` is at
most the timeout — updating `last_activity` to the timestamp, incrementing
`page_views_count` by one and setting `exit_page` to the record's URL path —
and on a strictly larger gap appends a brand-new session built exactly like a
first record's; in particular two records spaced timeout + 1 second apart
produce two distinct sessions. -/
theorem session_split :
    (∀ (b : SessionBuilder) (e : Entry) (v : String) (t : Int)
        (ss : List Session) (cur : Session),
        e.visitor_id = some v → e.timestamp = some t → v ≠ "" →
        sessionsOf b v = ss ++ [cur] →
        ((t - cur.last_activity ≤ b.session_timeout →
            (addPageView b e).1.session_id = some (some cur.session_id) ∧
            sessionsOf (addPageView b e).2 v = ss ++ [extendSession cur t e]) ∧
         (b.session_timeout < t - cur.last_activity →
            (addPageView b e).1.session_id =
              some (some (mkNewSession v t e).session_id) ∧
            sessionsOf (addPageView b e).2 v =
              (ss ++ [cur]) ++ [mkNewSession v t e]))) ∧
    (∀ (b : SessionBuilder) (e1 e2 : Entry) (v : String) (t1 : Int),
        e1.visitor_id = some v → e2.visitor_id = some v → v ≠ "" →
        e1.timestamp = some t1 →
        e2.timestamp = some (t1 + b.session_timeout + microsPerSecond) →
        sessionsOf b v = [] →
        (sessionsOf (runAdd b [e1, e2]).2 v).length = 2) := by
  constructor
  · intro b e v t ss cur hv ht hne hs
    constructor
    · intro hgap
      obtain ⟨h1, h2, _, _⟩ := addPageView_extend b e v t ss cur hv ht hne hs hgap
      exact ⟨by rw [h1], h2⟩
    · intro hgap
      obtain ⟨h1, h2, _, _⟩ :=
        addPageView_newSession b e v t ss cur hv ht hne hs hgap
      exact ⟨by rw [h1], h2⟩
  · intro b e1 e2 v t1 hv1 hv2 hne ht1 ht2 hs
    obtain ⟨_, h2, _, h4⟩ := addPageView_first b e1 v t1 hv1 ht1 hne hs
    have hgap : (addPageView b e1).2.session_timeout <
        (t1 + b.session_timeout + microsPerSecond) -
          (mkNewSession v t1 e1).last_activity := by
      rw [h4, show (mkNewSession v t1 e1).last_activity = t1 from rfl]
      have hpos : (0:Int) < microsPerSecond := by norm_num [microsPerSecond]
      omega
    obtain ⟨_, h2', _, _⟩ := addPageView_newSession (addPageView b e1).2 e2 v
      (t1 + b.session_timeout + microsPerSecond) [] (mkNewSession v t1 e1)
      hv2 ht2 hne (by simpa using h2) hgap
    have hrun : (runAdd b [e1, e2]).2 = (addPageView (addPageView b e1).2 e2).2 := by
      simp [runAdd]
    rw [hrun, h2']
    simp

theorem session_split_witness :
    (sessionsOf (runAdd exBuilder
        [exEntry 0 "/a", exEntry 1801000000 "/b"]).2 "v1").length = 2 :=
  session_split.2 exBuilder (exEntry 0 "/a") (exEntry 1801000000 "/b") "v1" 0
    rfl rfl (by decide) rfl (by decide) (by decide)

/-- C3: an `add_page_view` call never changes the `session_id`,
`start_time`, `landing_page`, `device_type` or `country_code` of any session
already in the tracker; a session that is not the most recently created one
for its visitor (a superseded session) is not changed at all; and after a
record extends a session, that session's `exit_page` equals the record's
`url_path`. -/
theorem session_immutable_fields (b : SessionBuilder) (e : Entry) :
    (∀ (v : String) (i : Nat) (s : Session),
        (sessionsOf b v)[i]? = some s →
        ∃ s', (sessionsOf (addPageView b e).2 v)[i]? = some s' ∧
          s'.session_id = s.session_id ∧
          s'.start_time = s.start_time ∧
          s'.landing_page = s.landing_page ∧
          s'.device_type = s.device_type ∧
          s'.country_code = s.country_code ∧
          (i + 1 < (sessionsOf b v).length → s' = s)) ∧
    (∀ (v : String) (t : Int) (ss : List Session) (cur : Session),
        e.visitor_id = some v → e.timestamp = some t → v ≠ "" →
        sessionsOf b v = ss ++ [cur] →
        t - cur.last_activity ≤ b.session_timeout →
        ((sessionsOf (addPageView b e).2 v).getLast?).map Session.exit_page =
          some e.url_path) := by
  constructor
  · intro v i s hs
    rcases addPageView_cases b e with heq | ⟨v0, t, _, _, _, _, hother, hbr⟩
    · exact ⟨s, by rw [heq]; exact hs, rfl, rfl, rfl, rfl, rfl, fun _ => rfl⟩
    by_cases hvv : v = v0
    on_goal 2 =>
      exact ⟨s, by rw [hother v hvv]; exact hs, rfl, rfl, rfl, rfl, rfl,
        fun _ => rfl⟩
    subst hvv
    rcases hbr with ⟨hnil, _⟩ | ⟨ss, cur, hold, _, hnew⟩ | ⟨ss, cur, hold, _, hnew⟩
    · rw [hnil] at hs; simp at hs
    · rw [hold] at hs
      rcases Nat.lt_or_ge i ss.length with hi | hi
      · refine ⟨s, ?_, rfl, rfl, rfl, rfl, rfl, fun _ => rfl⟩
        rw [hnew, List.getElem?_append, if_pos hi]
        rw [List.getElem?_append, if_pos hi] at hs
        exact hs
      · have hi2 : i < ss.length + 1 := by
          by_contra hcon
          rw [List.getElem?_eq_none (by simp; omega)] at hs
          exact Option.noConfusion hs
        have hieq : i = ss.length := by omega
        subst hieq
        rw [getElem?_concat_self] at hs
        have hcur : cur = s := Option.some.inj hs
        subst hcur
        refine ⟨extendSession cur t e, ?_, rfl, rfl, rfl, rfl, rfl, ?_⟩
        · rw [hnew, getElem?_concat_self]
        · intro hlt
          rw [hold] at hlt
          simp at hlt
    · rw [hold] at hs
      have hi : i < ss.length + 1 := by
        by_contra hcon
        rw [List.getElem?_eq_none (by simp; omega)] at hs
        exact Option.noConfusion hs
      refine ⟨s, ?_, rfl, rfl, rfl, rfl, rfl, fun _ => rfl⟩
      rw [hnew, List.getElem?_append, if_pos (by simp; omega)]
      exact hs
  · intro v t ss cur hv ht hne hold hgap
    obtain ⟨_, h2, _, _⟩ := addPageView_extend b e v t ss cur hv ht hne hold hgap
    rw [h2, List.getLast?_concat]
    rfl

theorem session_immutable_fields_witness :
    ∃ s', (sessionsOf (addPageView (runAdd exBuilder [exEntry 0 "/a"]).2
        (exEntry 1000000 "/b")).2 "v1")[0]? = some s' ∧
      s'.session_id = (mkNewSession "v1" 0 (exEntry 0 "/a")).session_id ∧
      s'.start_time = (mkNewSession "v1" 0 (exEntry 0 "/a")).start_time ∧
      s'.landing_page = (mkNewSession "v1" 0 (exEntry 0 "/a")).landing_page ∧
      s'.device_type = (mkNewSession "v1" 0 (exEntry 0 "/a")).device_type ∧
      s'.country_code = (mkNewSession "v1" 0 (exEntry 0 "/a")).country_code ∧
      (0 + 1 < (sessionsOf (runAdd exBuilder [exEntry 0 "/a"]).2 "v1").length →
        s' = mkNewSession "v1" 0 (exEntry 0 "/a")) :=
  (session_immutable_fields (runAdd exBuilder [exEntry 0 "/a"]).2
    (exEntry 1000000 "/b")).1 "v1" 0 (mkNewSession "v1" 0 (exEntry 0 "/a"))
    (by decide)

/-- Timestamps of the entries are non-decreasing and each consecutive gap is
at most `timeout`, relative to the previous timestamp `prev`. -/
def WithinTimeout (timeout : Int) : Int → List Entry → Prop
  | _, [] => True
  | prev, e :: rest =>
      ∃ t, e.timestamp = some t ∧ prev ≤ t ∧ t - prev ≤ timeout ∧
        WithinTimeout timeout t rest

/-- Streaming records of one visitor whose timestamps all stay within the
timeout of the previous one keeps extending the visitor's current session:
every record is assigned the current session id, and the session's page view
count grows by the number of records. -/
theorem runAdd_extends (v : String) (hne : v ≠ "") (es : List Entry) :
    ∀ (b : SessionBuilder) (ss : List Session) (cur : Session),
      sessionsOf b v = ss ++ [cur] →
      (∀ e ∈ es, e.visitor_id = some v) →
      WithinTimeout b.session_timeout cur.last_activity es →
      ((runAdd b es).1.map Entry.session_id =
          es.map fun _ => some (some cur.session_id)) ∧
      (runAdd b es).2.session_timeout = b.session_timeout ∧
      (∀ w, w ≠ v → sessionsOf (runAdd b es).2 w = sessionsOf b w) ∧
      ∃ cur', sessionsOf (runAdd b es).2 v = ss ++ [cur'] ∧
        cur'.session_id = cur.session_id ∧
        cur'.start_time = cur.start_time ∧
        cur'.page_views_count = cur.page_views_count + es.length := by
  induction es with
  | nil =>
      intro b ss cur hs _ _
      exact ⟨by simp [runAdd], by simp [runAdd],
        fun w _ => by simp [runAdd],
        cur, by simpa [runAdd] using hs, rfl, rfl, by simp [runAdd]⟩
  | cons e rest ih =>
      intro b ss cur hs hvis hw
      obtain ⟨t, ht, _, hgap, hw'⟩ := hw
      have hv : e.visitor_id = some v := hvis e (by simp)
      obtain ⟨h1, h2, h3, h4⟩ :=
        addPageView_extend b e v t ss cur hv ht hne hs
          (by simpa using hgap)
      have hw2 : WithinTimeout (addPageView b e).2.session_timeout
          (extendSession cur t e).last_activity rest := by
        rw [h4]
        exact hw'
      obtain ⟨ihmap, ihto, ihother, cur', ihs, ihid, ihstart, ihcount⟩ :=
        ih (addPageView b e).2 ss (extendSession cur t e) h2
          (fun e' he' => hvis e' (by simp [he'])) hw2
      have hrun1 : (runAdd b (e :: rest)).1 =
          (addPageView b e).1 :: (runAdd (addPageView b e).2 rest).1 := by
        simp [runAdd]
      have hrun2 : (runAdd b (e :: rest)).2 =
          (runAdd (addPageView b e).2 rest).2 := by
        simp [runAdd]
      refine ⟨?_, ?_, ?_, cur', ?_, ?_, ?_, ?_⟩
      · rw [hrun1]
        simp only [List.map_cons]
        rw [h1, ihmap]
        rfl
      · rw [hrun2, ihto, h4]
      · intro w hwv
        rw [hrun2, ihother w hwv, h3 w hwv]
      · rw [hrun2]; exact ihs
      · exact ihid
      · exact ihstart
      · rw [ihcount]
        simp [extendSession]
        omega

/-- C1: for n >= 1 records of one visitor with non-decreasing timestamps
whose consecutive gaps stay within the session timeout, presented in order
to `add_page_view` starting from a tracker holding no state for that
visitor, every record is assigned the same session id and the tracker ends
with exactly one session for the visitor, whose `page_views_count` equals
n. -/
theorem session_continuity (b0 : SessionBuilder) (v : String) (e0 : Entry)
    (rest : List Entry) (t0 : Int)
    (hne : v ≠ "") (hempty : sessionsOf b0 v = [])
    (hvis : ∀ e ∈ e0 :: rest, e.visitor_id = some v)
    (ht0 : e0.timestamp = some t0)
    (hwithin : WithinTimeout b0.session_timeout t0 rest) :
    ∃ sid : String,
      ((runAdd b0 (e0 :: rest)).1.map Entry.session_id =
          (e0 :: rest).map fun _ => some (some sid)) ∧
      ∃ s : Session, sessionsOf (runAdd b0 (e0 :: rest)).2 v = [s] ∧
        s.session_id = sid ∧ s.page_views_count = (e0 :: rest).length := by
  have hv0 : e0.visitor_id = some v := hvis e0 (by simp)
  obtain ⟨h1, h2, _, h4⟩ := addPageView_first b0 e0 v t0 hv0 ht0 hne hempty
  have hwithin' : WithinTimeout (addPageView b0 e0).2.session_timeout
      (mkNewSession v t0 e0).last_activity rest := by
    rw [h4]
    exact hwithin
  obtain ⟨ihmap, _, _, cur', ihs, ihid, _, ihcount⟩ :=
    runAdd_extends v hne rest (addPageView b0 e0).2 [] (mkNewSession v t0 e0)
      (by simpa using h2) (fun e' he' => hvis e' (by simp [he'])) hwithin'
  refine ⟨(mkNewSession v t0 e0).session_id, ?_, cur', ?_, ihid, ?_⟩
  · have hrun1 : (runAdd b0 (e0 :: rest)).1 =
        (addPageView b0 e0).1 :: (runAdd (addPageView b0 e0).2 rest).1 := by
      simp [runAdd]
    rw [hrun1]
    simp only [List.map_cons]
    rw [h1, ihmap]
  · have hrun2 : (runAdd b0 (e0 :: rest)).2 =
        (runAdd (addPageView b0 e0).2 rest).2 := by
      simp [runAdd]
    rw [hrun2]
    simpa using ihs
  · rw [ihcount]
    simp [mkNewSession]
    omega

theorem session_continuity_witness :
    ∃ sid : String,
      ((runAdd exBuilder [exEntry 0 "/a", exEntry 60000000 "/b"]).1.map
          Entry.session_id =
        ([exEntry 0 "/a", exEntry 60000000 "/b"]).map fun _ => some (some sid)) ∧
      ∃ s : Session,
        sessionsOf (runAdd exBuilder [exEntry 0 "/a", exEntry 60000000 "/b"]).2
          "v1" = [s] ∧
        s.session_id = sid ∧
        s.page_views_count = ([exEntry 0 "/a", exEntry 60000000 "/b"]).length :=
  session_continuity exBuilder "v1" (exEntry 0 "/a") [exEntry 60000000 "/b"] 0
    (by decide) rfl (by decide) rfl
    ⟨60000000, rfl, by decide, by decide, trivial⟩

/-- All tracked sessions are well-formed: last activity no earlier than the
start time and at least one page view. -/
def SessionsWF (b : SessionBuilder) : Prop :=
  ∀ p ∈ b.sessions_by_visitor, ∀ s ∈ p.2,
    s.start_time ≤ s.last_activity ∧ 1 ≤ s.page_views_count

/-- `add_page_view` either leaves the visitor map alone or rewrites exactly
the entry of the record's visitor. -/
theorem addPageView_map_shape (b : SessionBuilder) (e : Entry) :
    (addPageView b e).2.sessions_by_visitor = b.sessions_by_visitor ∨
    ∃ v, e.visitor_id = some v ∧
      (addPageView b e).2.sessions_by_visitor =
        setSessions b.sessions_by_visitor v
          (sessionsOf (addPageView b e).2 v) := by
  by_cases hv : truthyVisitor e.visitor_id = true
  on_goal 2 =>
    left
    rw [addPageView_skip b e (Or.inl (by simpa using hv))]
  by_cases ht : truthyTimestamp e.timestamp = true
  on_goal 2 =>
    left
    rw [addPageView_skip b e (Or.inr (by simpa using ht))]
  obtain ⟨v, hv'⟩ : ∃ v, e.visitor_id = some v := by
    cases hvis : e.visitor_id with
    | none => rw [hvis] at hv; simp [truthyVisitor] at hv
    | some v => exact ⟨v, rfl⟩
  have hne : v ≠ "" := by
    intro h
    rw [hv', h] at hv
    simp [truthyVisitor] at hv
  obtain ⟨t, ht'⟩ : ∃ t, e.timestamp = some t := by
    cases hts : e.timestamp with
    | none => rw [hts] at ht; simp [truthyTimestamp] at ht
    | some t => exact ⟨t, rfl⟩
  right
  refine ⟨v, hv', ?_⟩
  rw [addPageView_valid b e v t hv' ht' hne]
  cases hL : (lookupSessions b.sessions_by_visitor v).getLast? with
  | none =>
      simp [getOrCreateSession, hL, sessionsOf, lookupSessions_setSessions_self]
  | some cur =>
      by_cases hgap : t - cur.last_activity ≤ b.session_timeout <;>
        simp [getOrCreateSession, hL, hgap, sessionsOf,
          lookupSessions_setSessions_self]

/-- Well-formed trackers emit only session records with nonnegative duration
and positive page view count. -/
theorem getSessions_bounds (b : SessionBuilder) (hWF : SessionsWF b) :
    ∀ r ∈ getSessions b, r.start_time ≤ r.end_time ∧
      0 ≤ r.duration_seconds ∧ 1 ≤ r.page_views_count := by
  intro r hr
  simp only [getSessions, List.mem_flatMap, List.mem_map] at hr
  obtain ⟨p, hp, s, hs, rfl⟩ := hr
  obtain ⟨h1, h2⟩ := hWF p hp s hs
  refine ⟨h1, ?_, h2⟩
  exact Int.tdiv_nonneg (by omega) (by norm_num [microsPerSecond])

/-- C5: provided the incoming record's timestamp is not earlier than the
last activity of its visitor's current session (the per-visitor
non-decreasing order precondition), an `add_page_view` step preserves the
invariant that every tracked session has `last_activity >= start_time` and
`page_views_count >= 1`; only the most recently created session of the
record's visitor can change (all non-last sessions of every visitor are
untouched); and every emitted session record then has `end_time >=
start_time`, nonnegative duration and a positive page view count. -/
theorem session_invariants (b : SessionBuilder) (e : Entry)
    (hWF : SessionsWF b)
    (hord : ∀ v t cur, e.visitor_id = some v → e.timestamp = some t →
        (sessionsOf b v).getLast? = some cur → cur.last_activity ≤ t) :
    SessionsWF (addPageView b e).2 ∧
    (∀ (v : String) (i : Nat), i + 1 < (sessionsOf b v).length →
        (sessionsOf (addPageView b e).2 v)[i]? = (sessionsOf b v)[i]?) ∧
    (∀ r ∈ getSessions (addPageView b e).2,
        r.start_time ≤ r.end_time ∧ 0 ≤ r.duration_seconds ∧
          1 ≤ r.page_views_count) := by
  have hWF' : SessionsWF (addPageView b e).2 := by
    intro p hp s hs
    rcases addPageView_map_shape b e with hmap | ⟨v, hv, hmap⟩
    · exact hWF p (by rw [hmap] at hp; exact hp) s hs
    rw [hmap] at hp
    rcases mem_setSessions _ _ _ _ hp with hp' | hp'
    · exact hWF p hp' s hs
    subst hp'
    rcases addPageView_cases b e with heq | ⟨v0, t, hv0, ht0, _, _, _, hbr⟩
    · rw [show sessionsOf (addPageView b e).2 v = sessionsOf b v from by
        unfold sessionsOf; rw [heq]] at hs
      rcases List.eq_nil_or_concat (sessionsOf b v) with hnil | ⟨ss, cur, hcat⟩
      · rw [hnil] at hs; simp at hs
      · have hmem := lookupSessions_mem b.sessions_by_visitor v
          (by unfold sessionsOf at hcat; rw [hcat]; simp)
        exact hWF _ hmem s hs
    have hvv : v = v0 := by rw [hv] at hv0; exact Option.some.inj hv0
    subst hvv
    have hmemold : sessionsOf b v ≠ [] → (v, sessionsOf b v) ∈ b.sessions_by_visitor :=
      fun h => lookupSessions_mem b.sessions_by_visitor v h
    rcases hbr with ⟨_, hnew⟩ | ⟨ss, cur, hold, hgap, hnew⟩ | ⟨ss, cur, hold, _, hnew⟩
    · rw [hnew] at hs
      simp at hs
      subst hs
      exact ⟨le_refl _, le_refl _⟩
    · rw [hnew] at hs
      rcases List.mem_append.mp hs with hs' | hs'
      · have hsold : s ∈ sessionsOf b v := by rw [hold]; exact List.mem_append_left _ hs'
        exact hWF _ (hmemold (by rw [hold]; simp)) s hsold
      · have hse : s = extendSession cur t e := by simpa using hs'
        subst hse
        have hcurmem : cur ∈ sessionsOf b v := by rw [hold]; simp
        obtain ⟨hc1, hc2⟩ := hWF _ (hmemold (by rw [hold]; simp)) cur hcurmem
        have hlast : cur.last_activity ≤ t := by
          refine hord v t cur hv ht0 ?_
          rw [hold]
          exact List.getLast?_concat _
        constructor
        · show cur.start_time ≤ t
          omega
        · show 1 ≤ cur.page_views_count + 1
          omega
    · rw [hnew] at hs
      rcases List.mem_append.mp hs with hs' | hs'
      · have hsold : s ∈ sessionsOf b v := by rw [hold]; exact hs'
        exact hWF _ (hmemold (by rw [hold]; simp)) s hsold
      · have hse : s = mkNewSession v t e := by simpa using hs'
        subst hse
        exact ⟨le_refl _, le_refl _⟩
  refine ⟨hWF', ?_, getSessions_bounds _ hWF'⟩
  intro v i hi
  rcases addPageView_cases b e with heq | ⟨v0, t, _, _, _, _, hother, hbr⟩
  · unfold sessionsOf; rw [heq]
  by_cases hvv : v = v0
  on_goal 2 => rw [hother v hvv]
  subst hvv
  rcases hbr with ⟨hnil, _⟩ | ⟨ss, cur, hold, _, hnew⟩ | ⟨ss, cur, hold, _, hnew⟩
  · rw [hnil] at hi; simp at hi
  · rw [hold] at hi
    simp at hi
    rw [hnew, hold, List.getElem?_append, if_pos (by omega),
      List.getElem?_append, if_pos (by omega)]
  · rw [hold] at hi
    simp at hi
    rw [hnew, hold, List.getElem?_append, if_pos (by simp; omega)]

theorem session_invariants_witness :
    SessionsWF (addPageView (runAdd exBuilder [exEntry 0 "/a"]).2
      (exEntry 1000000 "/b")).2 :=
  (session_invariants (runAdd exBuilder [exEntry 0 "/a"]).2
    (exEntry 1000000 "/b")
    (by
      intro p hp s hs
      rw [show (runAdd exBuilder [exEntry 0 "/a"]).2.sessions_by_visitor =
        [("v1", [mkNewSession "v1" 0 (exEntry 0 "/a")])] from by decide] at hp
      simp at hp
      subst hp
      simp at hs
      subst hs
      decide)
    (by
      intro v t cur hv ht hcur
      have hv' : "v1" = v := Option.some.inj hv
      have ht' : (1000000 : Int) = t := Option.some.inj ht
      subst hv'
      subst ht'
      rw [show sessionsOf (runAdd exBuilder [exEntry 0 "/a"]).2 "v1" =
        [mkNewSession "v1" 0 (exEntry 0 "/a")] from by decide] at hcur
      simp at hcur
      subst hcur
      decide)).1

theorem keys_setSessions (m : List (String × List Session)) (v : String)
    (ss : List Session) :
    (setSessions m v ss).map Prod.fst =
      if v ∈ m.map Prod.fst then m.map Prod.fst
      else m.map Prod.fst ++ [v] := by
  induction m with
  | nil => simp [setSessions]
  | cons p rest ih =>
      by_cases h : p.1 = v
      · simp [setSessions, h]
      · have h' : (p.1 == v) = false := by simp [h]
        by_cases hm : v ∈ rest.map Prod.fst
        · simp [setSessions, h', ih, hm, Ne.symm h]
        · simp [setSessions, h', ih, hm, Ne.symm h]

theorem nodup_keys_setSessions (m : List (String × List Session)) (v : String)
    (ss : List Session) (h : (m.map Prod.fst).Nodup) :
    ((setSessions m v ss).map Prod.fst).Nodup := by
  rw [keys_setSessions]
  by_cases hm : v ∈ m.map Prod.fst
  · simpa [hm] using h
  · simp only [hm, if_false, ite_false]
    rw [List.nodup_append]
    exact ⟨h, List.nodup_singleton v, by
      intro a ha hav
      simp at hav
      subst hav
      exact hm ha⟩

theorem nodup_keys_addPageView (b : SessionBuilder) (e : Entry)
    (h : (b.sessions_by_visitor.map Prod.fst).Nodup) :
    (((addPageView b e).2.sessions_by_visitor).map Prod.fst).Nodup := by
  rcases addPageView_map_shape b e with hmap | ⟨v, _, hmap⟩
  · rw [hmap]; exact h
  · rw [hmap]; exact nodup_keys_setSessions _ _ _ h

theorem nodup_keys_runAdd (es : List Entry) : ∀ (b : SessionBuilder),
    (b.sessions_by_visitor.map Prod.fst).Nodup →
    (((runAdd b es).2.sessions_by_visitor).map Prod.fst).Nodup := by
  induction es with
  | nil => intro b h; simpa [runAdd] using h
  | cons e rest ih =>
      intro b h
      have h2 := ih (addPageView b e).2 (nodup_keys_addPageView b e h)
      simpa [runAdd] using h2

theorem lookupSessions_of_mem_nodup (m : List (String × List Session))
    (h : (m.map Prod.fst).Nodup) (v : String) (ss : List Session)
    (hmem : (v, ss) ∈ m) : lookupSessions m v = ss := by
  induction m with
  | nil => simp at hmem
  | cons p rest ih =>
      rw [List.map_cons, List.nodup_cons] at h
      rcases List.mem_cons.mp hmem with hp | hp
      · rw [← hp]
        simp [lookupSessions_cons]
      · have hv : v ∈ rest.map Prod.fst :=
          List.mem_map_of_mem Prod.fst hp
        have hne : (p.1 == v) = false := by
          simp only [beq_eq_false_iff_ne, ne_eq]
          intro he
          rw [he] at h
          exact h.1 hv
        rw [lookupSessions_cons, if_neg (by simp [hne] : ¬ (p.1 == v) = true)]
        exact ih h.2 hp

theorem visitorRecordOf_eq_none (p : String × List Session) :
    visitorRecordOf p = none ↔ p.2 = [] := by
  unfold visitorRecordOf
  cases p.2 <;> simp

theorem visitorRecordOf_spec (p : String × List Session) (r : VisitorRecord)
    (h : visitorRecordOf p = some r) :
    r.visitor_id = p.1 ∧ ∃ s0 rest, p.2 = s0 :: rest ∧
      r.first_seen = s0.start_time ∧
      (∃ last, (s0 :: rest).getLast? = some last ∧
        r.last_seen = last.last_activity) ∧
      r.total_visits = (s0 :: rest).length ∧
      r.total_page_views = ((s0 :: rest).map Session.page_views_count).sum := by
  unfold visitorRecordOf at h
  cases hp2 : p.2 with
  | nil => rw [hp2] at h; simp at h
  | cons s0 rest =>
      rw [hp2] at h
      simp only [Option.some.injEq] at h
      subst h
      refine ⟨rfl, s0, rest, rfl, rfl, ?_, rfl, rfl⟩
      exact ⟨(s0 :: rest).getLast (List.cons_ne_nil s0 rest),
        List.getLast?_eq_getLast _ _, rfl⟩

theorem getVisitors_count_notmem (m : List (String × List Session))
    (v : String) (h : v ∉ m.map Prod.fst) :
    ((m.filterMap visitorRecordOf).filter
      (fun r => r.visitor_id == v)).length = 0 := by
  induction m with
  | nil => simp
  | cons p rest ih =>
      have hpv : p.1 ≠ v := by
        intro he
        exact h (by simp [he])
      have hrest : v ∉ rest.map Prod.fst := fun hh => h (by simp [hh])
      rw [List.filterMap_cons]
      cases hvr : visitorRecordOf p with
      | none => exact ih hrest
      | some r =>
          have hrv : r.visitor_id = p.1 := (visitorRecordOf_spec p r hvr).1
          rw [List.filter_cons, if_neg (by simp [hrv, hpv])]
          exact ih hrest

theorem getVisitors_count_nodup (m : List (String × List Session))
    (h : (m.map Prod.fst).Nodup) (v : String) :
    ((m.filterMap visitorRecordOf).filter
        (fun r => r.visitor_id == v)).length =
      if lookupSessions m v = [] then 0 else 1 := by
  induction m with
  | nil => simp [lookupSessions]
  | cons p rest ih =>
      rw [List.map_cons, List.nodup_cons] at h
      rw [lookupSessions_cons]
      by_cases hpv : p.1 = v
      · rw [if_pos (show (p.1 == v) = true by simp [hpv])]
        cases hvr : visitorRecordOf p with
        | none =>
            have hp2 : p.2 = [] := (visitorRecordOf_eq_none p).mp hvr
            rw [List.filterMap_cons_none hvr,
              getVisitors_count_notmem rest v (by rw [← hpv]; exact h.1)]
            rw [if_pos hp2]
        | some r =>
            have hp2ne : p.2 ≠ [] := by
              intro hc
              rw [(visitorRecordOf_eq_none p).mpr hc] at hvr
              exact Option.noConfusion hvr
            have hrv : r.visitor_id = p.1 := (visitorRecordOf_spec p r hvr).1
            rw [List.filterMap_cons_some hvr,
              List.filter_cons, if_pos (show (r.visitor_id == v) = true by
                simp [hrv, hpv]),
              List.length_cons,
              getVisitors_count_notmem rest v (by rw [← hpv]; exact h.1)]
            rw [if_neg hp2ne]
      · rw [if_neg (show ¬ ((p.1 == v) = true) by simp [hpv])]
        cases hvr : visitorRecordOf p with
        | none =>
            rw [List.filterMap_cons_none hvr]
            exact ih h.2
        | some r =>
            have hrv : r.visitor_id = p.1 := (visitorRecordOf_spec p r hvr).1
            rw [List.filterMap_cons_some hvr,
              List.filter_cons, if_neg (show ¬ ((r.visitor_id == v) = true) by
                simp [hrv, hpv])]
            exact ih h.2

/-- C4: after any run of `add_page_view` calls from a fresh tracker,
`get_visitors` emits exactly one record per visitor with a nonempty session
list and none for visitors without sessions; each record carries
`first_seen` = the first (earliest-created) session's `start_time`,
`last_seen` = the most recently created session's `last_activity`,
`total_visits` = the number of that visitor's sessions, and
`total_page_views` = the sum of `page_views_count` over exactly that
visitor's sessions. -/
theorem visitor_rollup (mins : Int) (es : List Entry) (b : SessionBuilder)
    (hb : b = (runAdd (SessionBuilder.init mins) es).2) :
    (∀ r ∈ getVisitors b,
        ∃ s0 rest, sessionsOf b r.visitor_id = s0 :: rest ∧
          r.first_seen = s0.start_time ∧
          (∃ last, (s0 :: rest).getLast? = some last ∧
            r.last_seen = last.last_activity) ∧
          r.total_visits = (s0 :: rest).length ∧
          r.total_page_views =
            ((s0 :: rest).map Session.page_views_count).sum) ∧
    (∀ v, sessionsOf b v ≠ [] →
        ((getVisitors b).filter (fun r => r.visitor_id == v)).length = 1) ∧
    (∀ v, sessionsOf b v = [] →
        ((getVisitors b).filter (fun r => r.visitor_id == v)).length = 0) := by
  have hnd : (b.sessions_by_visitor.map Prod.fst).Nodup := by
    rw [hb]
    exact nodup_keys_runAdd es (SessionBuilder.init mins)
      (by simp [SessionBuilder.init])
  refine ⟨?_, ?_, ?_⟩
  · intro r hr
    simp only [getVisitors, List.mem_filterMap] at hr
    obtain ⟨p, hp, hvr⟩ := hr
    obtain ⟨hrv, s0, rest, hp2, hfirst, hlast, hvisits, hpv⟩ :=
      visitorRecordOf_spec p r hvr
    have hlook : lookupSessions b.sessions_by_visitor p.1 = p.2 :=
      lookupSessions_of_mem_nodup _ hnd p.1 p.2 hp
    refine ⟨s0, rest, ?_, hfirst, hlast, hvisits, hpv⟩
    unfold sessionsOf
    rw [hrv, hlook, hp2]
  · intro v hv
    rw [show getVisitors b = b.sessions_by_visitor.filterMap visitorRecordOf
        from rfl, getVisitors_count_nodup _ hnd v]
    unfold sessionsOf at hv
    simp [hv]
  · intro v hv
    rw [show getVisitors b = b.sessions_by_visitor.filterMap visitorRecordOf
        from rfl, getVisitors_count_nodup _ hnd v]
    unfold sessionsOf at hv
    simp [hv]

theorem visitor_rollup_witness :
    ((getVisitors (runAdd (SessionBuilder.init 30) [exEntry 0 "/a"]).2).filter
      (fun r => r.visitor_id == "v1")).length = 1 :=
  (visitor_rollup 30 [exEntry 0 "/a"]
    (runAdd (SessionBuilder.init 30) [exEntry 0 "/a"]).2 rfl).2.1 "v1"
    (by decide)

/-!
## Loader lemmas
-/

theorem chunksOf_flatten_aux (n : Nat) :
    ∀ (k : Nat) (l : List α), l.length ≤ k → (chunksOf n l).flatten = l := by
  intro k
  induction k with
  | zero =>
      intro l h
      have hl : l = [] := List.eq_nil_of_length_eq_zero (Nat.le_zero.mp h)
      subst hl
      simp [chunksOf]
  | succ k ih =>
      intro l h
      cases l with
      | nil => simp [chunksOf]
      | cons x xs =>
          rw [chunksOf]
          simp only [List.flatten_cons]
          rw [ih (xs.drop (n - 1)) (by
            simp only [List.length_cons] at h
            simp [List.length_drop]
            omega)]
          rw [List.cons_append, List.take_append_drop]

theorem chunksOf_flatten (n : Nat) (l : List α) : (chunksOf n l).flatten = l :=
  chunksOf_flatten_aux n l.length l (le_refl _)

theorem chunksOf_size_aux (n : Nat) (hn : 0 < n) :
    ∀ (k : Nat) (l : List α), l.length ≤ k →
      ∀ c ∈ chunksOf n l, c.length ≤ n := by
  intro k
  induction k with
  | zero =>
      intro l h
      have hl : l = [] := List.eq_nil_of_length_eq_zero (Nat.le_zero.mp h)
      subst hl
      simp [chunksOf]
  | succ k ih =>
      intro l h c hc
      cases l with
      | nil => simp [chunksOf] at hc
      | cons x xs =>
          rw [chunksOf] at hc
          rcases List.mem_cons.mp hc with hc' | hc'
          · subst hc'
            simp only [List.length_cons, List.length_take]
            omega
          · refine ih (xs.drop (n - 1)) ?_ c hc'
            simp only [List.length_cons] at h
            simp [List.length_drop]
            omega

theorem chunksOf_size (n : Nat) (hn : 0 < n) (l : List α) :
    ∀ c ∈ chunksOf n l, c.length ≤ n :=
  chunksOf_size_aux n hn l.length l (le_refl _)

theorem insertOneByOne_eq (accepts : PageViewRow → Bool)
    (records : List PageViewRow) :
    ∀ st : List PageViewRow × Nat,
      insertOneByOne accepts st records =
        (st.1 ++ records.filter accepts,
          st.2 + (records.filter accepts).length) := by
  induction records with
  | nil => intro st; simp [insertOneByOne]
  | cons r rest ih =>
      intro st
      cases ha : accepts r with
      | true =>
          rw [show insertOneByOne accepts st (r :: rest) =
              insertOneByOne accepts (st.1 ++ [r], st.2 + 1) rest from by
            rw [insertOneByOne]; simp [ha]]
          rw [ih]
          rw [List.filter_cons, if_pos (by simp [ha])]
          simp only [List.append_assoc, List.singleton_append,
            List.length_cons]
          refine Prod.ext rfl ?_
          simp
          omega
      | false =>
          rw [show insertOneByOne accepts st (r :: rest) =
              insertOneByOne accepts st rest from by
            rw [insertOneByOne]; simp [ha]]
          rw [ih]
          rw [List.filter_cons, if_neg (by simp [ha])]

theorem loadPageViewChunk_eq (accepts : PageViewRow → Bool)
    (st : List PageViewRow × Nat) (chunk : List PageViewRow) :
    loadPageViewChunk accepts st chunk =
      (st.1 ++ chunk.filter accepts,
        st.2 + (chunk.filter accepts).length) := by
  unfold loadPageViewChunk
  by_cases h : chunk.all accepts
  · rw [if_pos h,
      List.filter_eq_self.mpr (fun a ha => List.all_eq_true.mp h a ha)]
  · rw [if_neg h]
    exact insertOneByOne_eq accepts chunk st

theorem foldl_loadPageViewChunk (accepts : PageViewRow → Bool)
    (cs : List (List PageViewRow)) :
    ∀ st : List PageViewRow × Nat,
      cs.foldl (loadPageViewChunk accepts) st =
        (st.1 ++ (cs.flatten).filter accepts,
          st.2 + ((cs.flatten).filter accepts).length) := by
  induction cs with
  | nil => intro st; simp
  | cons c cs ih =>
      intro st
      rw [List.foldl_cons, loadPageViewChunk_eq, ih]
      simp only [List.flatten_cons, List.filter_append, List.append_assoc,
        List.length_append]
      refine Prod.ext rfl ?_
      simp
      omega

/-- `load_page_views` persists exactly the records the store accepts, in
order, and returns their number: bulk inserts succeed wholesale on clean
chunks and the per-record fallback salvages every acceptable record of a
dirty chunk. -/
theorem loadPageViews_eq (accepts : PageViewRow → Bool) (batch_size : Nat)
    (store page_views : List PageViewRow) :
    loadPageViews accepts batch_size store page_views =
      (store ++ page_views.filter accepts,
        (page_views.filter accepts).length) := by
  unfold loadPageViews
  rw [foldl_loadPageViewChunk, chunksOf_flatten]
  simp

/-- C7: `load_page_views` chunks its input into consecutive runs of at most
`batch_size`; a chunk whose bulk insert fails (because it holds a rejected
record) is retried record by record with independent commits, so with N
individually acceptable records and one rejected record exactly the N
acceptable records are persisted, in order, the rejected record alone is
dropped, and the returned count equals the number of persisted records —
never fewer than N. -/
theorem batch_partial_failure (accepts : PageViewRow → Bool)
    (batch_size : Nat) (store page_views : List PageViewRow)
    (hbs : 0 < batch_size)
    (hone : (page_views.filter (fun r => !(accepts r))).length = 1) :
    (∀ c ∈ chunksOf batch_size page_views, c.length ≤ batch_size) ∧
    (chunksOf batch_size page_views).flatten = page_views ∧
    (loadPageViews accepts batch_size store page_views).1 =
      store ++ page_views.filter accepts ∧
    (loadPageViews accepts batch_size store page_views).2 =
      page_views.length - 1 := by
  refine ⟨chunksOf_size batch_size hbs page_views,
    chunksOf_flatten batch_size page_views, ?_, ?_⟩
  · rw [loadPageViews_eq]
  · rw [loadPageViews_eq]
    have key : ∀ (l : List PageViewRow),
        (l.filter accepts).length +
          (l.filter (fun r => !(accepts r))).length = l.length := by
      intro l
      induction l with
      | nil => simp
      | cons a l ih =>
          cases h : accepts a <;> simp [List.filter_cons, h] <;> omega
    have hk := key page_views
    omega

/-- A concrete page view row whose status code distinguishes it. -/
def exRow (code : Int) : PageViewRow :=
  { timestamp := some 0, visitor_id := some "v1", session_id := none,
    url_path := some "/a", query_string := none, http_method := some "GET",
    status_code := some code, referrer_domain := none, referrer_path := none,
    user_agent := none, browser := none, browser_version := none,
    os := none, os_version := none, device_type := none,
    country_code := none, country_name := none, region := none, city := none,
    edge_location := none, edge_result_type := none, bytes_sent := none,
    time_taken_ms := none }

/-- A concrete store-acceptance predicate: rows with status code 999 violate
a storage constraint. -/
def exAccepts (r : PageViewRow) : Bool := !(r.status_code == some 999)

theorem batch_partial_failure_witness :
    (loadPageViews exAccepts 2 [] [exRow 200, exRow 999, exRow 201]).2 =
      ([exRow 200, exRow 999, exRow 201] : List PageViewRow).length - 1 :=
  (batch_partial_failure exAccepts 2 [] [exRow 200, exRow 999, exRow 201]
    (by decide) (by decide)).2.2.2

theorem loadSessions_single (bs : Nat) (store : List SessionRecord)
    (r : SessionRecord) :
    loadSessions bs store [r] = (upsertSessionRow store r, 1) := by
  unfold loadSessions
  rw [show chunksOf bs [r] = [[r]] from by simp [chunksOf]]
  simp

theorem loadVisitors_single (bs : Nat) (store : List VisitorRecord)
    (r : VisitorRecord) :
    loadVisitors bs store [r] = (upsertVisitorRow store r, 1) := by
  unfold loadVisitors
  rw [show chunksOf bs [r] = [[r]] from by simp [chunksOf]]
  simp

theorem upsertSessionRow_update (store : List SessionRecord)
    (r s : SessionRecord) (hs : s ∈ store)
    (hk : s.session_id = r.session_id) :
    upsertSessionRow store r = store.map fun x =>
      if x.session_id == r.session_id then
        { x with end_time := r.end_time
                 duration_seconds := r.duration_seconds
                 page_views_count := r.page_views_count
                 exit_page := r.exit_page }
      else x := by
  unfold upsertSessionRow
  rw [if_pos (List.any_eq_true.mpr ⟨s, hs, by simp [hk]⟩)]

theorem upsertSessionRow_insert (store : List SessionRecord)
    (r : SessionRecord) (h : ∀ x ∈ store, x.session_id ≠ r.session_id) :
    upsertSessionRow store r = store ++ [r] := by
  unfold upsertSessionRow
  rw [if_neg (by
    simp only [List.any_eq_true, not_exists]
    intro x
    simp only [not_and]
    intro hx
    simp [h x hx])]

theorem upsertVisitorRow_update (store : List VisitorRecord)
    (r s : VisitorRecord) (hs : s ∈ store)
    (hk : s.visitor_id = r.visitor_id) :
    upsertVisitorRow store r = store.map fun x =>
      if x.visitor_id == r.visitor_id then
        { x with last_seen := r.last_seen
                 total_visits := r.total_visits
                 total_page_views := r.total_page_views }
      else x := by
  unfold upsertVisitorRow
  rw [if_pos (List.any_eq_true.mpr ⟨s, hs, by simp [hk]⟩)]

/-- C8: `load_sessions` / `load_visitors` upsert on the unique key
(`session_id` / `visitor_id`): loading a record whose key already exists
overwrites only the mutable fields (sessions: `end_time`,
`duration_seconds`, `page_views_count`, `exit_page`; visitors: `last_seen`,
`total_visits`, `total_page_views`) of exactly the matching row, keeping all
other rows and the stored immutable fields, and adds no row; loading the
same session record twice leaves exactly one stored row for that
`session_id`, bearing the latest `end_time`. -/
theorem upsert_semantics :
    (∀ (bs : Nat) (store : List SessionRecord) (r s : SessionRecord),
        s ∈ store → s.session_id = r.session_id →
        (loadSessions bs store [r]).1 = store.map (fun x =>
            if x.session_id == r.session_id then
              { x with end_time := r.end_time
                       duration_seconds := r.duration_seconds
                       page_views_count := r.page_views_count
                       exit_page := r.exit_page }
            else x) ∧
        ((loadSessions bs store [r]).1).length = store.length) ∧
    (∀ (bs : Nat) (store : List SessionRecord) (r r' : SessionRecord),
        (∀ x ∈ store, x.session_id ≠ r.session_id) →
        r'.session_id = r.session_id →
        (((loadSessions bs (loadSessions bs store [r]).1 [r']).1).filter
            (fun x => x.session_id == r.session_id)).length = 1 ∧
        (∀ x ∈ (loadSessions bs (loadSessions bs store [r]).1 [r']).1,
            x.session_id = r.session_id →
              x.end_time = r'.end_time ∧ x.start_time = r.start_time ∧
              x.visitor_id = r.visitor_id ∧
              x.landing_page = r.landing_page)) ∧
    (∀ (bs : Nat) (store : List VisitorRecord) (r s : VisitorRecord),
        s ∈ store → s.visitor_id = r.visitor_id →
        (loadVisitors bs store [r]).1 = store.map (fun x =>
            if x.visitor_id == r.visitor_id then
              { x with last_seen := r.last_seen
                       total_visits := r.total_visits
                       total_page_views := r.total_page_views }
            else x) ∧
        ((loadVisitors bs store [r]).1).length = store.length) := by
  refine ⟨?_, ?_, ?_⟩
  · intro bs store r s hs hk
    rw [loadSessions_single]
    have h := upsertSessionRow_update store r s hs hk
    exact ⟨h, by rw [show (upsertSessionRow store r, 1).1 =
      upsertSessionRow store r from rfl, h]; simp⟩
  · intro bs store r r' hnew hk
    have h1 : (loadSessions bs store [r]).1 = store ++ [r] := by
      rw [loadSessions_single]
      exact upsertSessionRow_insert store r hnew
    have hrmem : r ∈ store ++ [r] := by simp
    have h2 : (loadSessions bs (store ++ [r]) [r']).1 =
        (store ++ [r]).map (fun x =>
          if x.session_id == r'.session_id then
            { x with end_time := r'.end_time
                     duration_seconds := r'.duration_seconds
                     page_views_count := r'.page_views_count
                     exit_page := r'.exit_page }
          else x) := by
      rw [loadSessions_single]
      exact upsertSessionRow_update (store ++ [r]) r' r hrmem hk.symm
    have hstore : store.map (fun x =>
        if x.session_id == r'.session_id then
          { x with end_time := r'.end_time
                   duration_seconds := r'.duration_seconds
                   page_views_count := r'.page_views_count
                   exit_page := r'.exit_page }
        else x) = store := by
      conv_rhs => rw [← List.map_id store]
      apply List.map_congr_left
      intro x hx
      have hxne : x.session_id ≠ r'.session_id := by
        rw [hk]
        exact hnew x hx
      simp [hxne]
    have hfr : (fun x =>
        if x.session_id == r'.session_id then
          { x with end_time := r'.end_time
                   duration_seconds := r'.duration_seconds
                   page_views_count := r'.page_views_count
                   exit_page := r'.exit_page }
        else x) r =
        { r with end_time := r'.end_time
                 duration_seconds := r'.duration_seconds
                 page_views_count := r'.page_views_count
                 exit_page := r'.exit_page } := by
      simp [hk]
    have hfin : (loadSessions bs (loadSessions bs store [r]).1 [r']).1 =
        store ++ [{ r with end_time := r'.end_time
                           duration_seconds := r'.duration_seconds
                           page_views_count := r'.page_views_count
                           exit_page := r'.exit_page }] := by
      rw [h1, h2, List.map_append, hstore]
      simp only [List.map_cons, List.map_nil, hfr]
    constructor
    · rw [hfin, List.filter_append]
      rw [List.filter_eq_nil_iff.mpr (by
        intro x hx
        simp [hnew x hx])]
      simp
    · intro x hx hxk
      rw [hfin] at hx
      rcases List.mem_append.mp hx with hx' | hx'
      · exact absurd hxk (hnew x hx')
      · have : x = { r with end_time := r'.end_time
                            duration_seconds := r'.duration_seconds
                            page_views_count := r'.page_views_count
                            exit_page := r'.exit_page } := by simpa using hx'
        subst this
        exact ⟨rfl, rfl, rfl, rfl⟩
  · intro bs store r s hs hk
    rw [loadVisitors_single]
    have h := upsertVisitorRow_update store r s hs hk
    exact ⟨h, by rw [show (upsertVisitorRow store r, 1).1 =
      upsertVisitorRow store r from rfl, h]; simp⟩

/-- A concrete session record with a given end time. -/
def exSessionRecord (endT : Int) : SessionRecord :=
  { session_id := "s1", visitor_id := "v1", start_time := 0,
    end_time := endT, duration_seconds := endT, page_views_count := 1,
    landing_page := some "/a", exit_page := some "/b",
    device_type := some "desktop", country_code := some "GB" }

theorem upsert_semantics_witness :
    (((loadSessions 1000
          (loadSessions 1000 [] [exSessionRecord 5]).1
          [exSessionRecord 9]).1).filter
        (fun x => x.session_id == (exSessionRecord 5).session_id)).length =
      1 :=
  (upsert_semantics.2.1 1000 [] (exSessionRecord 5) (exSessionRecord 9)
    (by simp) rfl).1
